import Mathlib

/-!
Verification of the session-log feature-extraction utilities (`utils.py`).

The Python source is shallowly embedded:
  - strings are `String` (lists of characters via `.data`);
  - the anchored regular expression of `extract_features_from_action` is
    embedded as a deterministic maximal-munch matcher (`regexSplit`): each
    optional group starts with a distinct delimiter character that is excluded
    from the preceding character classes, so the backtracking regex engine and
    the maximal-munch matcher accept exactly the same strings with the same
    captures;
  - Python `set` objects are embedded as duplicate-free lists in first-insertion
    order (the iteration order is only required to be fixed, which a list is);
  - fallible code (IndexError on `times[-1]` and `rows[0]`, the `assert` in
    `process_data`) is embedded with `Option`;
  - the mutable `CSVDataProcessor` instance state is embedded as an explicit
    `ProcState` value threaded through the methods; file reads are embedded by
    passing the list of raw rows the `csv` module would produce;
  - Python float division `total_actions / int(session_duration)` is embedded
    as exact division in `ℚ`.
-/

/-- Character class of Python `str.strip()` whitespace (ASCII part). -/
def pyWS (c : Char) : Bool :=
  c == ' ' || c == '\t' || c == '\n' || c == '\r' || c == '\x0b' || c == '\x0c'

/-- Embedding of Python `str.strip()` on the character list. -/
def pyStrip (cs : List Char) : List Char :=
  ((cs.dropWhile pyWS).reverse.dropWhile pyWS).reverse

/-- The character class `[^(<$1]` of the action group in the source regex
`r'^([^(<$1]+)?(?:\(([^)]+)\))?(?:<([^>]+)>)?(?:\$([^$]+)\$)?$'`. -/
def actionChar (c : Char) : Bool :=
  !(c == '(' || c == '<' || c == '$' || c == '1')

/-- Embedding of the full match test `re.match(r'^t\d+$', s)`: a letter `t`
followed by one or more ASCII digits and nothing else. -/
def isTimeShaped : List Char → Bool
  | c :: d :: rest => c == 't' && (d :: rest).all Char.isDigit
  | _ => false

/-- The time-marker test used on raw row cells (`utils.py` lines 174 and 180). -/
def timeRe (s : String) : Bool := isTimeShaped s.data

/-- One optional bracketed group of the source regex, e.g. `(?:\(([^)]+)\))?`:
if the input starts with the opening delimiter, is followed by a nonempty run
of characters other than the closing delimiter and then the closing delimiter,
the group captures that run and consumes it; otherwise the group captures
nothing and consumes nothing. -/
def pyGroup (opn cls : Char) (cs : List Char) : Option (List Char) × List Char :=
  match cs with
  | [] => (none, [])
  | c :: rest =>
    if c == opn then
      let content := rest.takeWhile (fun x => !(x == cls))
      let rem := rest.dropWhile (fun x => !(x == cls))
      if content.isEmpty then (none, c :: rest)
      else
        match rem with
        | [] => (none, c :: rest)
        | _ :: rem2 => (some content, rem2)
    else (none, c :: rest)

/-- The whole anchored regex of `extract_features_from_action` (`utils.py`
lines 19-25): the action run, the three optional delimited groups, and the
requirement that the entire (stripped) input is consumed; `none` is the
no-match case. Each group begins with a delimiter excluded from every earlier
character class, so no regex backtracking can produce a different result. -/
def regexSplit (cs : List Char) :
    Option (Option (List Char) × Option (List Char) × Option (List Char) × Option (List Char)) :=
  let act := cs.takeWhile actionChar
  let r0 := cs.dropWhile actionChar
  let g1 := pyGroup '(' ')' r0
  let g2 := pyGroup '<' '>' g1.2
  let g3 := pyGroup '$' '$' g2.2
  if g3.2.isEmpty then
    some (if act.isEmpty then none else some act, g1.1, g2.1, g3.1)
  else none

/-- Embedding of Python `str.lower()` (ASCII part). -/
def pyLower (cs : List Char) : List Char := cs.map Char.toLower

/-- Post-processing of a captured group (`utils.py` lines 33-36, 41-43):
strip whitespace and turn an empty result into `none`. -/
def normField (cs : List Char) : Option String :=
  if (pyStrip cs).isEmpty then none else some (String.mk (pyStrip cs))

/-- Post-processing of the action group (`utils.py` lines 33 and 40): strip,
empty becomes `none`, and a value fully matching `t<digits>` becomes `none`. -/
def normAction (cs : List Char) : Option String :=
  if (pyStrip cs).isEmpty then none
  else if isTimeShaped (pyStrip cs) then none
  else some (String.mk (pyStrip cs))

/-- Post-processing of the chaine group (`utils.py` lines 36 and 43): strip,
lowercase, empty becomes `none`. -/
def normChaine (cs : List Char) : Option String :=
  if (pyStrip cs).isEmpty then none else some (String.mk (pyLower (pyStrip cs)))

/-- Embedding of `extract_features_from_action` (`utils.py` lines 9-44). -/
def extract_features_from_action (phrase : String) :
    Option String × Option String × Option String × Option String :=
  match regexSplit (pyStrip phrase.data) with
  | none => (none, none, none, none)
  | some r =>
    (r.1.bind normAction, r.2.1.bind normField, r.2.2.1.bind normField, r.2.2.2.bind normChaine)

/-- The action component of a parsed token. -/
def parsedAction (tok : String) : Option String := (extract_features_from_action tok).1

/-- The screen component of a parsed token. -/
def parsedScreen (tok : String) : Option String := (extract_features_from_action tok).2.1

/-- The configuration component of a parsed token. -/
def parsedConfig (tok : String) : Option String := (extract_features_from_action tok).2.2.1

/-- The chaine component of a parsed token. -/
def parsedChaine (tok : String) : Option String := (extract_features_from_action tok).2.2.2

/-- Embedding of `read_csv_file` (`utils.py` lines 47-62), applied to the raw
rows the `csv` module yields for the file. With `has_header` the source
evaluates `rows[0]` and `rows[1:]` and returns `[header] + data`, which raises
`IndexError` on an empty file and otherwise returns the rows unchanged. -/
def read_csv_file (fileRows : List (List String)) (has_header : Bool) :
    Option (List (List String)) :=
  if has_header then
    match fileRows with
    | [] => none
    | h :: d => some (h :: d)
  else some fileRows

/-- The four training-only vocabulary sets of `CSVDataProcessor` (`utils.py`
lines 80-83), as duplicate-free lists in first-insertion order. -/
structure Vocab where
  actions : List String
  screens : List String
  configurations : List String
  chaines : List String
deriving DecidableEq

/-- Embedding of `set.add`: insert if not already present. -/
def addOpt (l : List String) : Option String → List String
  | none => l
  | some x => if x ∈ l then l else l ++ [x]

/-- One iteration of the inner loop of `extract_all_possible_features`
(`utils.py` lines 114-123). -/
def addToken (v : Vocab) (tok : String) : Vocab :=
  { actions := addOpt v.actions (parsedAction tok)
    screens := addOpt v.screens (parsedScreen tok)
    configurations := addOpt v.configurations (parsedConfig tok)
    chaines := addOpt v.chaines (parsedChaine tok) }

/-- Embedding of `extract_all_possible_features` (`utils.py` lines 101-123):
scan every row, skipping the first two cells (user, navigator) on training
data, one cell otherwise, and accumulate parsed components into the sets. -/
def extract_all_possible_features (is_training : Bool) (rows : List (List String))
    (v : Vocab) : Vocab :=
  rows.foldl (fun acc row => (row.drop (if is_training then 2 else 1)).foldl addToken acc) v

/-- The f-string label of `utils.py` line 135. -/
def actionLabel (a : String) : String := "occurrence of action \x27" ++ a ++ "\x27 "

/-- The f-string label of `utils.py` line 138. -/
def screenLabel (s : String) : String := "occurrence of screen \x27" ++ s ++ "\x27 "

/-- The f-string label of `utils.py` line 141. -/
def configurationLabel (c : String) : String := "occurrence of configuration \x27" ++ c ++ "\x27 "

/-- The f-string label of `utils.py` line 144. -/
def chaineLabel (c : String) : String := "occurrence of chaine \x27" ++ c ++ "\x27 "

/-- Embedding of the column-list construction of `create_headers` (`utils.py`
lines 125-150), taking the vocabulary (already accumulated when training)
as an argument. -/
def create_headers (is_training : Bool) (v : Vocab) : List String :=
  (if is_training then ["user", "navigator", "total_actions", "session_duration", "avg_speed"]
   else ["navigator", "total_actions", "session_duration", "avg_speed"])
    ++ v.actions.map actionLabel ++ v.screens.map screenLabel
    ++ v.configurations.map configurationLabel ++ v.chaines.map chaineLabel

/-- One cell of a projected feature row: `extract_data_from_row` appends
strings (user, navigator, session duration), integers (total actions and the
occurrence counts) and one rational (the average speed). -/
inductive Feature where
  | str : String → Feature
  | nat : Nat → Feature
  | rat : ℚ → Feature
deriving DecidableEq

/-- Embedding of `int(...)` on a string of ASCII digits. -/
def strToNat (s : String) : Nat :=
  s.data.foldl (fun n c => 10 * n + (c.toNat - 48)) 0

/-- The average-speed expression of `utils.py` line 188:
`total_actions/int(session_duration) if int(session_duration) > 0 else 0`. -/
def avgSpeed (total dur : Nat) : ℚ := if 0 < dur then (total : ℚ) / (dur : ℚ) else 0

/-- The per-row occurrence count that `extract_data_from_row` computes with a
dictionary (`utils.py` lines 192-213): `.get(v, 0)` on the tally dictionary is
the number of tokens whose parsed component equals `v`. -/
def countTok (f : String → Option String) (v : String) (toks : List String) : Nat :=
  (toks.filter (fun tok => f tok == some v)).length

/-- Embedding of `extract_data_from_row` (`utils.py` lines 152-215) after the
optional removal of the user cell: navigator, total actions, session duration
(digit suffix of the last `t<digits>` cell — `IndexError`, i.e. `none`, when
there is none), average speed, then one count per vocabulary member in
vocabulary order. -/
def extract_core (voc : Vocab) : List String → Option (List Feature)
  | [] => none
  | nav :: actions =>
    ((actions.filter timeRe).getLast?).map (fun lastT =>
      Feature.str nav
        :: Feature.nat (actions.filter (fun a => !timeRe a)).length
        :: Feature.str (String.mk (lastT.data.drop 1))
        :: Feature.rat (avgSpeed (actions.filter (fun a => !timeRe a)).length
              (strToNat (String.mk (lastT.data.drop 1))))
        :: (voc.actions.map (fun v => Feature.nat (countTok parsedAction v actions))
          ++ voc.screens.map (fun v => Feature.nat (countTok parsedScreen v actions))
          ++ voc.configurations.map (fun v => Feature.nat (countTok parsedConfig v actions))
          ++ voc.chaines.map (fun v => Feature.nat (countTok parsedChaine v actions))))

/-- Embedding of `extract_data_from_row` (`utils.py` lines 152-215): on
training data the first cell is the user and is moved to the front of the
result. -/
def extract_data_from_row (is_training : Bool) (voc : Vocab) (row : List String) :
    Option (List Feature) :=
  if is_training then
    match row with
    | [] => none
    | u :: rest => (extract_core voc rest).map (fun l => Feature.str u :: l)
  else extract_core voc row

/-- The mutable state of a `CSVDataProcessor` instance (`utils.py`
lines 74-83). The training file path is represented by passing the file's raw
rows to the methods that read it. -/
structure ProcState where
  data : Option (List (List String))
  is_training_data : Option Bool
  headers : Option (List String)
  voc : Vocab
deriving DecidableEq

/-- The state built by `__init__` (`utils.py` lines 74-83). -/
def initState : ProcState := ⟨none, none, none, ⟨[], [], [], []⟩⟩

/-- A processed table: the column names and the projected rows. -/
abbrev Table := List String × List (List Feature)

/-- Embedding of `_initialise` (`utils.py` lines 92-99): read the training
file, set the training flag and the data, build the vocabulary and the
headers. `none` is the `IndexError` of `read_csv_file` on an empty file. -/
def _initialise (trainFileRows : List (List String)) (st : ProcState) : Option ProcState :=
  (read_csv_file trainFileRows true).map (fun rows =>
    let st1 : ProcState := { st with is_training_data := some true, data := some rows }
    let v : Vocab := extract_all_possible_features true rows st1.voc
    { st1 with voc := v, headers := some (create_headers true v) })

/-- Embedding of `process_data` (`utils.py` lines 217-230). In the test branch
the `assert` on a missing data argument, and the slicing of a missing header
list, fail before the flag assignment; otherwise `self.data` and
`self.is_training_data` are updated and every stored row is projected. The
first component is the resulting table (`none` on failure), the second the
state after the mutations performed up to that point. -/
def process_data (st : ProcState) (dataArg : Option (List (List String)))
    (is_training : Bool) : Option Table × ProcState :=
  if is_training then
    let st1 : ProcState := { st with is_training_data := some true }
    match st1.data, st1.headers with
    | some rows, some hs =>
      match rows.mapM (extract_data_from_row true st1.voc) with
      | some prows => (some (hs, prows), st1)
      | none => (none, st1)
    | _, _ => (none, st1)
  else
    match dataArg with
    | none => (none, st)
    | some rows =>
      let st1 : ProcState := { st with data := some rows }
      match st1.headers with
      | none => (none, st1)
      | some hs =>
        let st2 : ProcState := { st1 with is_training_data := some false }
        match rows.mapM (extract_data_from_row false st2.voc) with
        | some prows => (some (hs.drop 1, prows), st2)
        | none => (none, st2)

/-- Embedding of `get_processed_train_data` (`utils.py` lines 232-241):
initialise when data or headers are missing, then process the stored data as
training data. -/
def get_processed_train_data (trainFileRows : List (List String)) (st : ProcState) :
    Option Table × ProcState :=
  if st.data.isNone || st.headers.isNone then
    match _initialise trainFileRows st with
    | none => (none, st)
    | some st1 => process_data st1 none true
  else process_data st none true

/-- Embedding of `get_processed_test_data` (`utils.py` lines 243-253):
initialise when headers are missing, read the test file, clear the training
flag, process the test rows. -/
def get_processed_test_data (trainFileRows testFileRows : List (List String))
    (st : ProcState) : Option Table × ProcState :=
  match (if st.headers.isNone then _initialise trainFileRows st else some st) with
  | none => (none, st)
  | some st1 =>
    match read_csv_file testFileRows true with
    | none => (none, st1)
    | some testRows =>
      process_data { st1 with is_training_data := some false } (some testRows) false

/-! ## List and character helper lemmas -/

lemma takeWhile_append_all {p : Char → Bool} :
    ∀ (l1 l2 : List Char), (∀ c ∈ l1, p c = true) →
      (l1 ++ l2).takeWhile p = l1 ++ l2.takeWhile p := by
  intro l1
  induction l1 with
  | nil => intro l2 _; simp
  | cons a t ih =>
    intro l2 h
    have ha : p a = true := h a (by simp)
    simp only [List.cons_append, List.takeWhile_cons, ha, if_true]
    rw [ih l2 (fun c hc => h c (by simp [hc]))]

lemma dropWhile_append_all {p : Char → Bool} :
    ∀ (l1 l2 : List Char), (∀ c ∈ l1, p c = true) →
      (l1 ++ l2).dropWhile p = l2.dropWhile p := by
  intro l1
  induction l1 with
  | nil => intro l2 _; simp
  | cons a t ih =>
    intro l2 h
    have ha : p a = true := h a (by simp)
    simp only [List.cons_append, List.dropWhile_cons, ha, if_true]
    exact ih l2 (fun c hc => h c (by simp [hc]))

lemma takeWhile_all {p : Char → Bool} (l : List Char) (h : ∀ c ∈ l, p c = true) :
    l.takeWhile p = l := by
  have := takeWhile_append_all l [] h
  simpa using this

lemma dropWhile_all {p : Char → Bool} (l : List Char) (h : ∀ c ∈ l, p c = true) :
    l.dropWhile p = [] := by
  have := dropWhile_append_all l [] h
  simpa using this

lemma takeWhile_stop {p : Char → Bool} (l1 : List Char) (x : Char) (l2 : List Char)
    (h1 : ∀ c ∈ l1, p c = true) (h2 : p x = false) :
    (l1 ++ x :: l2).takeWhile p = l1 ∧ (l1 ++ x :: l2).dropWhile p = x :: l2 := by
  constructor
  · rw [takeWhile_append_all l1 _ h1, List.takeWhile_cons, h2]
    simp
  · rw [dropWhile_append_all l1 _ h1, List.dropWhile_cons, h2]
    simp

lemma pyGroup_nil (opn cls : Char) : pyGroup opn cls [] = (none, []) := rfl

lemma pyGroup_skip {opn cls c : Char} {cs : List Char} (h : (c == opn) = false) :
    pyGroup opn cls (c :: cs) = (none, c :: cs) := by
  simp [pyGroup, h]

lemma pyGroup_exact (opn cls : Char) (S rest : List Char) (h1 : S ≠ [])
    (h2 : ∀ c ∈ S, (c == cls) = false) :
    pyGroup opn cls (opn :: (S ++ cls :: rest)) = (some S, rest) := by
  have ht : (S ++ cls :: rest).takeWhile (fun x => !(x == cls)) = S :=
    (takeWhile_stop S cls rest (fun c hc => by simp [h2 c hc]) (by simp)).1
  have hd : (S ++ cls :: rest).dropWhile (fun x => !(x == cls)) = cls :: rest :=
    (takeWhile_stop S cls rest (fun c hc => by simp [h2 c hc]) (by simp)).2
  simp [pyGroup, ht, hd, h1]

lemma dropWhile_id_of_head {p : Char → Bool} {a : Char} {t : List Char} (h : p a = false) :
    (a :: t).dropWhile p = a :: t := by
  rw [List.dropWhile_cons, h]
  simp

lemma head_false_of_dropWhile_self {p : Char → Bool} {a : Char} {t : List Char}
    (h : (a :: t).dropWhile p = a :: t) : p a = false := by
  by_cases hp : p a = true
  · rw [List.dropWhile_cons, if_pos hp] at h
    have hle := (List.dropWhile_sublist (l := t) p).length_le
    rw [h] at hle
    simp at hle
  · revert hp
    cases p a <;> simp

lemma dropWhile_head_false {p : Char → Bool} :
    ∀ {l : List Char} {c : Char} {cs : List Char}, l.dropWhile p = c :: cs → p c = false := by
  intro l
  induction l with
  | nil => intro c cs h; simp at h
  | cons a t ih =>
    intro c cs h
    rw [List.dropWhile_cons] at h
    by_cases ha : p a = true
    · rw [if_pos ha] at h
      exact ih h
    · rw [if_neg ha] at h
      injection h with h1 _
      subst h1
      revert ha
      cases p a <;> simp

lemma mem_of_dropWhile_head {p : Char → Bool} {l : List Char} {c : Char} {cs : List Char}
    (h : l.dropWhile p = c :: cs) : c ∈ l := by
  have hs := List.dropWhile_sublist (l := l) p
  rw [h] at hs
  exact hs.subset (by simp)

lemma pyStrip_eq_self {l : List Char}
    (h1 : ∀ c, l.head? = some c → pyWS c = false)
    (h2 : ∀ c, l.getLast? = some c → pyWS c = false) : pyStrip l = l := by
  cases l with
  | nil => rfl
  | cons a t =>
    have ha := h1 a rfl
    unfold pyStrip
    rw [dropWhile_id_of_head ha]
    cases hr : (a :: t).reverse with
    | nil => simp at hr
    | cons b rb =>
      have hb : pyWS b = false := by
        apply h2
        rw [← List.head?_reverse, hr]
        rfl
      rw [dropWhile_id_of_head hb, ← hr, List.reverse_reverse]

lemma pyStrip_eq_self_of_all {l : List Char} (h : ∀ c ∈ l, pyWS c = false) :
    pyStrip l = l := by
  apply pyStrip_eq_self
  · intro c hc
    cases l with
    | nil => simp at hc
    | cons a t =>
      injection hc with hc
      exact hc ▸ h a (by simp)
  · intro c hc
    have : c ∈ l := by
      have := List.mem_of_mem_head? (l := l.reverse) (a := c)
      rw [List.head?_reverse] at this
      simpa using this hc
    exact h c this

lemma pyWS_not_digit {c : Char} (h : pyWS c = true) : c.isDigit = false := by
  simp only [pyWS, Bool.or_eq_true, beq_iff_eq] at h
  rcases h with ((((rfl | rfl) | rfl) | rfl) | rfl) | rfl <;> decide

lemma isDigit_not_pyWS {c : Char} (h : c.isDigit = true) : pyWS c = false := by
  cases hw : pyWS c
  · rfl
  · rw [pyWS_not_digit hw] at h
    cases h

lemma isDigit_beq_false {c d : Char} (h : c.isDigit = true) (hd : d.isDigit = false) :
    (c == d) = false := by
  cases he : (c == d)
  · rfl
  · have := eq_of_beq he
    subst this
    rw [hd] at h
    cases h

/-! ## Claims about the token parser -/

/-- Claim C3 counterexample: on the input string `ab1cd`, whose leading action
text contains the digit `1`, `extract_features_from_action` does not return the
truncated action `ab`; it returns all four components absent, because the
anchored regex cannot consume the character `1` at all and the whole match
fails. -/
theorem claim3_action_digit_one_cex :
    (extract_features_from_action "ab1cd").1 ≠ some "ab"
    ∧ extract_features_from_action "ab1cd" = (none, none, none, none) := by
  constructor
  · decide
  · decide

/-- Claim C3 as amended: when the run of characters before the first `(`, `<`,
`$` or `1` of the stripped input is followed by the digit `1`, the anchored
pattern has no way to consume that digit, so the whole match fails and
`extract_features_from_action` returns all four components absent (it does not
return the truncated action text). -/
theorem claim3_action_digit_one (s : String) (pre post : List Char)
    (h1 : pyStrip s.data = pre ++ '1' :: post)
    (h2 : ∀ c ∈ pre, actionChar c = true) :
    extract_features_from_action s = (none, none, none, none) := by
  have hs := takeWhile_stop pre '1' post h2 (by decide)
  have hg1 : pyGroup '(' ')' ('1' :: post) = (none, '1' :: post) := pyGroup_skip (by decide)
  have hg2 : pyGroup '<' '>' ('1' :: post) = (none, '1' :: post) := pyGroup_skip (by decide)
  have hg3 : pyGroup '$' '$' ('1' :: post) = (none, '1' :: post) := pyGroup_skip (by decide)
  unfold extract_features_from_action
  rw [h1]
  simp [regexSplit, hs.1, hs.2, hg1, hg2, hg3]

/-- Claim C3 witness: the amended statement applied to the concrete input
`ab1cd`. -/
theorem claim3_action_digit_one_witness :
    extract_features_from_action "ab1cd" = (none, none, none, none) :=
  claim3_action_digit_one "ab1cd" ['a', 'b'] ['c', 'd'] (by decide) (by decide)

/-- Claim C9: parsing the empty string yields all four components absent, and
parsing any string that fully matches `t<digits>` also yields all four
components absent — a time-marker-shaped string never populates the action
field. -/
theorem claim9_inert_tokens :
    extract_features_from_action "" = (none, none, none, none)
    ∧ ∀ s : String, timeRe s = true →
        extract_features_from_action s = (none, none, none, none) := by
  constructor
  · rfl
  · intro s h
    unfold timeRe at h
    unfold extract_features_from_action
    cases hsd : s.data with
    | nil => rw [hsd] at h; simp [isTimeShaped] at h
    | cons c rest0 =>
      cases rest0 with
      | nil => rw [hsd] at h; simp [isTimeShaped] at h
      | cons d rest =>
        rw [hsd] at h
        simp only [isTimeShaped, Bool.and_eq_true, beq_iff_eq, List.all_eq_true] at h
        obtain ⟨hc, hdig⟩ := h
        subst hc
        have hts : isTimeShaped ('t' :: d :: rest) = true := by
          simp only [isTimeShaped, Bool.and_eq_true, List.all_eq_true, beq_self_eq_true,
            true_and]
          exact hdig
        have hndws : ∀ x ∈ 't' :: d :: rest, pyWS x = false := by
          intro x hx
          rcases List.mem_cons.mp hx with rfl | hx2
          · decide
          · exact isDigit_not_pyWS (hdig x hx2)
        have hstrip : pyStrip ('t' :: d :: rest) = 't' :: d :: rest :=
          pyStrip_eq_self_of_all hndws
        rw [hstrip]
        by_cases h1 : '1' ∈ d :: rest
        · have hne : ('t' :: d :: rest).dropWhile actionChar ≠ [] := by
            intro hnil
            have := (List.dropWhile_eq_nil_iff.mp hnil) '1' (by simp [h1])
            simp [actionChar] at this
          cases hr0 : ('t' :: d :: rest).dropWhile actionChar with
          | nil => exact absurd hr0 hne
          | cons c0 r0 =>
            have hc0f : actionChar c0 = false := dropWhile_head_false hr0
            have hc0m : c0 ∈ 't' :: d :: rest := mem_of_dropWhile_head hr0
            have hc0d : c0.isDigit = true := by
              rcases List.mem_cons.mp hc0m with rfl | hm
              · simp [actionChar] at hc0f
              · exact hdig c0 hm
            have hb1 : (c0 == '(') = false := isDigit_beq_false hc0d (by decide)
            have hb2 : (c0 == '<') = false := isDigit_beq_false hc0d (by decide)
            have hb3 : (c0 == '$') = false := isDigit_beq_false hc0d (by decide)
            have hg1 : pyGroup '(' ')' (c0 :: r0) = (none, c0 :: r0) := pyGroup_skip hb1
            have hg2 : pyGroup '<' '>' (c0 :: r0) = (none, c0 :: r0) := pyGroup_skip hb2
            have hg3 : pyGroup '$' '$' (c0 :: r0) = (none, c0 :: r0) := pyGroup_skip hb3
            simp [regexSplit, hr0, hg1, hg2, hg3]
        · have hact : ∀ x ∈ 't' :: d :: rest, actionChar x = true := by
            intro x hx
            rcases List.mem_cons.mp hx with rfl | hx2
            · decide
            · have hxd := hdig x hx2
              have hx1 : (x == '1') = false := by
                apply beq_eq_false_iff_ne.mpr
                intro he
                exact h1 (he ▸ hx2)
              have hxa : (x == '(') = false := isDigit_beq_false hxd (by decide)
              have hxb : (x == '<') = false := isDigit_beq_false hxd (by decide)
              have hxc : (x == '$') = false := isDigit_beq_false hxd (by decide)
              simp [actionChar, hxa, hxb, hxc, hx1]
          have htake := takeWhile_all _ hact
          have hdrop := dropWhile_all _ hact
          simp [regexSplit, htake, hdrop, pyGroup_nil, normAction, hstrip, hts]

/-- Claim C9 witness: the universally quantified part applied to the concrete
time-shaped string `t42`. -/
theorem claim9_inert_tokens_witness :
    extract_features_from_action "t42" = (none, none, none, none) :=
  claim9_inert_tokens.2 "t42" (by decide)

/-! ## Claims about the CSV reader and the schema -/

/-- Claim C10 counterexample: on an empty file the `has_header` flag does
change the behaviour of `read_csv_file` — with the flag set, `rows[0]` raises
an `IndexError` (embedded as `none`), while without it the empty row list is
returned. -/
theorem claim10_read_csv_cex :
    read_csv_file ([] : List (List String)) true = none
    ∧ read_csv_file ([] : List (List String)) false = some []
    ∧ read_csv_file ([] : List (List String)) true ≠ read_csv_file [] false := by
  refine ⟨rfl, rfl, by decide⟩

/-- Claim C10 as amended: on every file with at least one row,
`read_csv_file` returns the same full list of rows whether `has_header` is
true or false; in particular the first file row (the header) is always
included, so `_initialise` stores it in `data` and feeds the whole file —
header row included — into vocabulary extraction and, therefore, row
projection. -/
theorem claim10_read_csv (rows : List (List String)) (h : rows ≠ []) :
    read_csv_file rows true = some rows
    ∧ read_csv_file rows false = some rows
    ∧ ∀ st : ProcState, ∃ st1, _initialise rows st = some st1
        ∧ st1.data = some rows
        ∧ st1.voc = extract_all_possible_features true rows st.voc := by
  obtain ⟨r0, rs, rfl⟩ := List.exists_cons_of_ne_nil h
  exact ⟨rfl, rfl, fun st => ⟨_, rfl, rfl, rfl⟩⟩

/-- Claim C10 witness: the amended statement applied to a one-row file. -/
theorem claim10_read_csv_witness :
    read_csv_file [["u1", "chrome", "t3"]] true = some [["u1", "chrome", "t3"]]
    ∧ read_csv_file [["u1", "chrome", "t3"]] false = some [["u1", "chrome", "t3"]]
    ∧ ∀ st : ProcState, ∃ st1, _initialise [["u1", "chrome", "t3"]] st = some st1
        ∧ st1.data = some [["u1", "chrome", "t3"]]
        ∧ st1.voc = extract_all_possible_features true [["u1", "chrome", "t3"]] st.voc :=
  claim10_read_csv [["u1", "chrome", "t3"]] (by decide)

/-- Claim C7: the training schema built by `create_headers` has exactly 5
columns plus one column per vocabulary member, its first column is `user`,
and the schema with the first column dropped (which `process_data` uses for
test data) is exactly the schema `create_headers` builds without the training
flag: the same columns in the same order, without `user`. -/
theorem claim7_schema_columns (v : Vocab) :
    (create_headers true v).length
        = 5 + v.actions.length + v.screens.length
            + v.configurations.length + v.chaines.length
    ∧ (create_headers true v).head? = some "user"
    ∧ (create_headers true v).drop 1 = create_headers false v := by
  refine ⟨?_, rfl, rfl⟩
  simp [create_headers]
  omega

/-! ## Claims about the row projector -/

/-- Claim C1: projecting a training row `user :: navigator :: tokens` fails
(no feature vector at all) exactly when no token cell fully matches
`t<digits>`; and when some cell does, the `session_duration` entry is the
digit suffix of the last time-shaped cell in original order. -/
theorem claim1_missing_duration (voc : Vocab) (u nav : String) (tokens : List String) :
    ((∀ a ∈ tokens, timeRe a = false) →
      extract_data_from_row true voc (u :: nav :: tokens) = none)
    ∧ ∀ t, (tokens.filter timeRe).getLast? = some t →
        ∃ rest, extract_data_from_row true voc (u :: nav :: tokens)
          = some (Feature.str u :: Feature.str nav
              :: Feature.nat (tokens.filter (fun a => !timeRe a)).length
              :: Feature.str (String.mk (t.data.drop 1)) :: rest) := by
  constructor
  · intro h
    have hf : tokens.filter timeRe = [] := by
      rw [List.filter_eq_nil_iff]
      intro a ha
      simp [h a ha]
    simp [extract_data_from_row, extract_core, hf]
  · intro t ht
    refine ⟨Feature.rat (avgSpeed (tokens.filter (fun a => !timeRe a)).length
          (strToNat (String.mk (t.data.drop 1))))
        :: (voc.actions.map (fun v => Feature.nat (countTok parsedAction v tokens))
          ++ voc.screens.map (fun v => Feature.nat (countTok parsedScreen v tokens))
          ++ voc.configurations.map (fun v => Feature.nat (countTok parsedConfig v tokens))
          ++ voc.chaines.map (fun v => Feature.nat (countTok parsedChaine v tokens))), ?_⟩
    simp [extract_data_from_row, extract_core, ht]

/-- Claim C1 witness: a row with no time-shaped cell fails; a row whose last
time-shaped cell is `t7` gets session duration `7`. -/
theorem claim1_missing_duration_witness :
    extract_data_from_row true ⟨[], [], [], []⟩ ("u" :: "nav" :: ["click(home)"]) = none
    ∧ ∃ rest, extract_data_from_row true ⟨[], [], [], []⟩ ("u" :: "nav" :: ["t5", "t7"])
        = some (Feature.str "u" :: Feature.str "nav"
            :: Feature.nat ((["t5", "t7"].filter (fun a => !timeRe a)).length)
            :: Feature.str (String.mk ("t7".data.drop 1)) :: rest) :=
  ⟨(claim1_missing_duration ⟨[], [], [], []⟩ "u" "nav" ["click(home)"]).1 (by decide),
   (claim1_missing_duration ⟨[], [], [], []⟩ "u" "nav" ["t5", "t7"]).2 "t7" (by decide)⟩

/-- Claim C6: for every training row with at least one time-shaped token the
projection succeeds (never a division error), and the average-speed entry is
the total action count divided by the integer value of the session duration
when that value is positive, and exactly `0` when the duration is `0`. -/
theorem claim6_avg_speed (voc : Vocab) (u nav : String) (tokens : List String) (t : String)
    (ht : (tokens.filter timeRe).getLast? = some t) :
    ∃ rest, extract_data_from_row true voc (u :: nav :: tokens)
      = some (Feature.str u :: Feature.str nav
          :: Feature.nat (tokens.filter (fun a => !timeRe a)).length
          :: Feature.str (String.mk (t.data.drop 1))
          :: Feature.rat
            (if 0 < strToNat (String.mk (t.data.drop 1))
             then ((tokens.filter (fun a => !timeRe a)).length : ℚ)
                / (strToNat (String.mk (t.data.drop 1)) : ℚ)
             else 0)
          :: rest) := by
  refine ⟨voc.actions.map (fun v => Feature.nat (countTok parsedAction v tokens))
      ++ voc.screens.map (fun v => Feature.nat (countTok parsedScreen v tokens))
      ++ voc.configurations.map (fun v => Feature.nat (countTok parsedConfig v tokens))
      ++ voc.chaines.map (fun v => Feature.nat (countTok parsedChaine v tokens)), ?_⟩
  simp [extract_data_from_row, extract_core, ht, avgSpeed]

/-- Claim C6 witness: the theorem applied to a zero-duration row (`t0`), where
the average speed is the value `0` rather than an error. -/
theorem claim6_avg_speed_witness :
    ∃ rest, extract_data_from_row true ⟨[], [], [], []⟩ ("u" :: "n" :: ["t0"])
      = some (Feature.str "u" :: Feature.str "n"
          :: Feature.nat ((["t0"].filter (fun a => !timeRe a)).length)
          :: Feature.str (String.mk ("t0".data.drop 1))
          :: Feature.rat
            (if 0 < strToNat (String.mk ("t0".data.drop 1))
             then (((["t0"].filter (fun a => !timeRe a)).length : ℚ)
                / (strToNat (String.mk ("t0".data.drop 1)) : ℚ))
             else 0)
          :: rest) :=
  claim6_avg_speed ⟨[], [], [], []⟩ "u" "n" ["t0"] "t0" (by decide)

/-- The training row of the spec example for claim C5. -/
def row5 : List String := ["u1", "chrome", "t5", "click(home)", "t12"]

/-- The vocabulary the processor builds from a training set consisting of the
claim C5 example row alone. -/
def voc5 : Vocab := extract_all_possible_features true [row5] ⟨[], [], [], []⟩

/-- Claim C5: `total_actions` is the number of token cells that do not fully
match `t<digits>`, each counted once even when its parse is all-absent; and the
spec's example row `u1, chrome, [t5, click(home), t12]` projects to
total 1, duration `12`, speed `1/12`, and count `1` for both the action
`click` and the screen `home`. A row with the inert token `(x` (which parses
to all four components absent) still counts it in `total_actions` while all
occurrence counts stay `0`. -/
theorem claim5_total_actions :
    (∀ (voc : Vocab) (u nav : String) (tokens : List String) (t : String),
      (tokens.filter timeRe).getLast? = some t →
      ∃ rest, extract_data_from_row true voc (u :: nav :: tokens)
        = some (Feature.str u :: Feature.str nav
            :: Feature.nat (tokens.filter (fun a => !timeRe a)).length :: rest))
    ∧ extract_data_from_row true voc5 row5
        = some [Feature.str "u1", Feature.str "chrome", Feature.nat 1, Feature.str "12",
            Feature.rat (1 / 12), Feature.nat 1, Feature.nat 1]
    ∧ extract_data_from_row true voc5 ["u1", "chrome", "(x", "t2"]
        = some [Feature.str "u1", Feature.str "chrome", Feature.nat 1, Feature.str "2",
            Feature.rat (1 / 2), Feature.nat 0, Feature.nat 0]
    ∧ extract_features_from_action "(x" = (none, none, none, none) := by
  refine ⟨?_, ?_, ?_, by decide⟩
  · intro voc u nav tokens t ht
    refine ⟨Feature.str (String.mk (t.data.drop 1))
        :: Feature.rat (avgSpeed (tokens.filter (fun a => !timeRe a)).length
            (strToNat (String.mk (t.data.drop 1))))
        :: (voc.actions.map (fun v => Feature.nat (countTok parsedAction v tokens))
          ++ voc.screens.map (fun v => Feature.nat (countTok parsedScreen v tokens))
          ++ voc.configurations.map (fun v => Feature.nat (countTok parsedConfig v tokens))
          ++ voc.chaines.map (fun v => Feature.nat (countTok parsedChaine v tokens))), ?_⟩
    simp [extract_data_from_row, extract_core, ht]
  · have h12 : avgSpeed 1 12 = 1 / 12 := by norm_num [avgSpeed]
    rw [← h12]
    rfl
  · have h2 : avgSpeed 1 2 = 1 / 2 := by norm_num [avgSpeed]
    rw [← h2]
    rfl

/-- Claim C5 witness: the universally quantified part applied to the example
row. -/
theorem claim5_total_actions_witness :
    ∃ rest, extract_data_from_row true voc5 ("u1" :: "chrome" :: ["t5", "click(home)", "t12"])
      = some (Feature.str "u1" :: Feature.str "chrome"
          :: Feature.nat ((["t5", "click(home)", "t12"].filter (fun a => !timeRe a)).length)
          :: rest) :=
  claim5_total_actions.1 voc5 "u1" "chrome" ["t5", "click(home)", "t12"] "t12" (by decide)

/-- Claim C8: projecting a test row that contains category values absent from
the vocabulary raises no error and adds no column — the result has exactly
`4 + |actions| + |screens| + |configurations| + |chaines|` entries; every
vocabulary member that occurs in no token of the row gets the count `0`; and
`process_data` on test data never changes the four vocabulary sets. -/
theorem claim8_unknown_categories (voc : Vocab) (nav : String) (tokens : List String)
    (t : String) (ht : (tokens.filter timeRe).getLast? = some t) :
    (∃ l, extract_data_from_row false voc (nav :: tokens) = some l
      ∧ l.length = 4 + voc.actions.length + voc.screens.length
          + voc.configurations.length + voc.chaines.length)
    ∧ (∀ v, (∀ tok ∈ tokens, parsedAction tok ≠ some v) → countTok parsedAction v tokens = 0)
    ∧ (∀ v, (∀ tok ∈ tokens, parsedScreen tok ≠ some v) → countTok parsedScreen v tokens = 0)
    ∧ (∀ v, (∀ tok ∈ tokens, parsedConfig tok ≠ some v) → countTok parsedConfig v tokens = 0)
    ∧ (∀ v, (∀ tok ∈ tokens, parsedChaine tok ≠ some v) → countTok parsedChaine v tokens = 0)
    ∧ ∀ (st : ProcState) (dataArg : Option (List (List String))),
        (process_data st dataArg false).2.voc = st.voc := by
  have hcount : ∀ (f : String → Option String) (v : String),
      (∀ tok ∈ tokens, f tok ≠ some v) → countTok f v tokens = 0 := by
    intro f v hv
    unfold countTok
    rw [List.filter_eq_nil_iff.mpr]
    · rfl
    · intro tok htok
      simp only [beq_iff_eq]
      exact hv tok htok
  refine ⟨?_, fun v => hcount parsedAction v, fun v => hcount parsedScreen v,
    fun v => hcount parsedConfig v, fun v => hcount parsedChaine v, ?_⟩
  · refine ⟨Feature.str nav
        :: Feature.nat (tokens.filter (fun a => !timeRe a)).length
        :: Feature.str (String.mk (t.data.drop 1))
        :: Feature.rat (avgSpeed (tokens.filter (fun a => !timeRe a)).length
            (strToNat (String.mk (t.data.drop 1))))
        :: (voc.actions.map (fun v => Feature.nat (countTok parsedAction v tokens))
          ++ voc.screens.map (fun v => Feature.nat (countTok parsedScreen v tokens))
          ++ voc.configurations.map (fun v => Feature.nat (countTok parsedConfig v tokens))
          ++ voc.chaines.map (fun v => Feature.nat (countTok parsedChaine v tokens))), ?_, ?_⟩
    · simp [extract_data_from_row, extract_core, ht]
    · simp only [List.length_cons, List.length_append, List.length_map]
      omega
  · intro st dataArg
    rcases dataArg with _ | rows
    · rfl
    · unfold process_data
      simp only [Bool.false_eq_true, if_false]
      cases hh : st.headers with
      | none => simp [hh]
      | some hs =>
        simp only [hh]
        cases hm : rows.mapM (extract_data_from_row false st.voc) with
        | none => simp [hm]
        | some prows => simp [hm]

/-- Claim C8 witness: the theorem applied to a test row containing the novel
token `novel(new)`, with a vocabulary that does not contain it. -/
theorem claim8_unknown_categories_witness :
    (∃ l, extract_data_from_row false ⟨["click"], ["home"], [], []⟩
          ("chrome" :: ["novel(new)", "t10"]) = some l
      ∧ l.length = 4 + (Vocab.mk ["click"] ["home"] [] []).actions.length
          + (Vocab.mk ["click"] ["home"] [] []).screens.length
          + (Vocab.mk ["click"] ["home"] [] []).configurations.length
          + (Vocab.mk ["click"] ["home"] [] []).chaines.length)
    ∧ (∀ v, (∀ tok ∈ ["novel(new)", "t10"], parsedAction tok ≠ some v) →
        countTok parsedAction v ["novel(new)", "t10"] = 0)
    ∧ (∀ v, (∀ tok ∈ ["novel(new)", "t10"], parsedScreen tok ≠ some v) →
        countTok parsedScreen v ["novel(new)", "t10"] = 0)
    ∧ (∀ v, (∀ tok ∈ ["novel(new)", "t10"], parsedConfig tok ≠ some v) →
        countTok parsedConfig v ["novel(new)", "t10"] = 0)
    ∧ (∀ v, (∀ tok ∈ ["novel(new)", "t10"], parsedChaine tok ≠ some v) →
        countTok parsedChaine v ["novel(new)", "t10"] = 0)
    ∧ ∀ (st : ProcState) (dataArg : Option (List (List String))),
        (process_data st dataArg false).2.voc = st.voc :=
  claim8_unknown_categories ⟨["click"], ["home"], [], []⟩ "chrome" ["novel(new)", "t10"]
    "t10" (by decide)

/-! ## Claim about the orchestrator call sequence -/

/-- The training file of the claim C4 scenario. -/
def trainFileC4 : List (List String) := [["u1", "chrome", "a(b)", "t10"]]

/-- The test file of the claim C4 scenario. -/
def testFileC4 : List (List String) := [["firefox", "c(d)", "t20"]]

/-- The vocabulary extracted from the C4 training file. -/
def vocC4 : Vocab := ⟨["a"], ["b"], [], []⟩

/-- Claim C4 evaluated on a failing call sequence: after initialising on the
training file and calling `get_processed_test_data`, a call to
`get_processed_train_data` does not return the projection of the training
rows. `get_processed_test_data` stored the test rows in `self.data`, and
`get_processed_train_data` finds `self.data` and `self.headers` non-`None`, so
it skips re-initialisation and projects the stored *test* rows as training
data: the test row's navigator `firefox` is mis-read as the user and the first
token `c(d)` as the navigator. The second conjunct is the projection of the
training rows — what the claim says the call should return — and the third
records that the two differ. -/
theorem claim4_train_after_test_bug :
    (_initialise trainFileC4 initState).map (fun st1 =>
        (get_processed_train_data trainFileC4
          (get_processed_test_data trainFileC4 testFileC4 st1).2).1)
      = some (some (create_headers true vocC4,
          [[Feature.str "firefox", Feature.str "c(d)", Feature.nat 0, Feature.str "20",
            Feature.rat 0, Feature.nat 0, Feature.nat 0]]))
    ∧ trainFileC4.mapM (extract_data_from_row true vocC4)
      = some [[Feature.str "u1", Feature.str "chrome", Feature.nat 1, Feature.str "10",
          Feature.rat (1 / 10), Feature.nat 1, Feature.nat 1]]
    ∧ ([[Feature.str "firefox", Feature.str "c(d)", Feature.nat 0, Feature.str "20",
          Feature.rat 0, Feature.nat 0, Feature.nat 0]]
        ≠ [[Feature.str "u1", Feature.str "chrome", Feature.nat 1, Feature.str "10",
          Feature.rat (1 / 10), Feature.nat 1, Feature.nat 1]]) := by
  refine ⟨?_, ?_, by decide⟩
  · have h0 : avgSpeed 0 20 = 0 := by norm_num [avgSpeed]
    rw [← h0]
    rfl
  · have h10 : avgSpeed 1 10 = 1 / 10 := by norm_num [avgSpeed]
    rw [← h10]
    rfl

/-! ## Claim C2: the parser round-trip -/

/-- Claim C2 counterexample: the claim's conditions (no `(`,`)`,`<`,`>`,`$`
anywhere, no `1` in the action) admit inputs on which the parse does not
return `(A, S, C, lowercase(Ch))`: a time-shaped action `t5` is normalized to
absent; an empty screen makes the whole match fail; surrounding whitespace is
stripped from the captured fields. -/
theorem claim2_roundtrip_cex :
    extract_features_from_action "t5(s)<c>$x$" ≠ (some "t5", some "s", some "c", some "x")
    ∧ extract_features_from_action "t5(s)<c>$x$" = (none, some "s", some "c", some "x")
    ∧ extract_features_from_action "a()<c>$x$" = (none, none, none, none)
    ∧ extract_features_from_action "a( s)<c>$x$" = (some "a", some "s", some "c", some "x") := by
  refine ⟨by decide, by decide, by decide, by decide⟩

/-- A sub-field value on which the round-trip can be exact: nonempty, no
leading or trailing whitespace (so stripping is the identity), and none of the
five delimiter characters of the grammar. -/
def plainField (l : List Char) : Prop :=
  l ≠ [] ∧ l.dropWhile pyWS = l ∧ l.reverse.dropWhile pyWS = l.reverse
    ∧ ∀ c ∈ l, c ≠ '(' ∧ c ≠ ')' ∧ c ≠ '<' ∧ c ≠ '>' ∧ c ≠ '$'

/-- Claim C2 as amended: for every string of the shape `A(S)<C>$Ch$` where the
four sub-fields contain none of `(`,`)`,`<`,`>`,`$`, are nonempty and carry no
leading or trailing whitespace, and where additionally `A` contains no digit
`1` and does not fully match `t<digits>`, `extract_features_from_action`
returns exactly `(A, S, C, lowercase(Ch))`. -/
theorem claim2_roundtrip (A S C Ch : List Char)
    (hA : plainField A) (hA1 : ∀ c ∈ A, c ≠ '1') (hA2 : isTimeShaped A = false)
    (hS : plainField S) (hC : plainField C) (hCh : plainField Ch) :
    extract_features_from_action
        (String.mk (A ++ '(' :: (S ++ ')' :: ('<' :: (C ++ '>' :: ('$' :: (Ch ++ ['$'])))))))
      = (some (String.mk A), some (String.mk S), some (String.mk C),
         some (String.mk (pyLower Ch))) := by
  obtain ⟨hA0, hAl, hAr, hAc⟩ := hA
  obtain ⟨hS0, hSl, hSr, hSc⟩ := hS
  obtain ⟨hC0, hCl, hCr, hCc⟩ := hC
  obtain ⟨hh0, hhl, hhr, hhc⟩ := hCh
  have hstripA : pyStrip A = A := by unfold pyStrip; rw [hAl, hAr, List.reverse_reverse]
  have hstripS : pyStrip S = S := by unfold pyStrip; rw [hSl, hSr, List.reverse_reverse]
  have hstripC : pyStrip C = C := by unfold pyStrip; rw [hCl, hCr, List.reverse_reverse]
  have hstripCh : pyStrip Ch = Ch := by unfold pyStrip; rw [hhl, hhr, List.reverse_reverse]
  have hstrip : pyStrip (A ++ '(' :: (S ++ ')' :: ('<' :: (C ++ '>' :: ('$' :: (Ch ++ ['$']))))))
      = A ++ '(' :: (S ++ ')' :: ('<' :: (C ++ '>' :: ('$' :: (Ch ++ ['$']))))) := by
    apply pyStrip_eq_self
    · intro c hc
      obtain ⟨a, A2, rfl⟩ := List.exists_cons_of_ne_nil hA0
      have hwa : pyWS a = false := head_false_of_dropWhile_self hAl
      rw [List.cons_append, List.head?_cons] at hc
      injection hc with hc
      exact hc ▸ hwa
    · intro c hc
      rw [show A ++ '(' :: (S ++ ')' :: ('<' :: (C ++ '>' :: ('$' :: (Ch ++ ['$'])))))
          = (A ++ '(' :: (S ++ ')' :: ('<' :: (C ++ '>' :: ('$' :: Ch))))) ++ ['$'] by
            simp] at hc
      rw [List.getLast?_concat] at hc
      injection hc with hc
      exact hc ▸ (by decide)
  have hact : ∀ c ∈ A, actionChar c = true := by
    intro c hc
    obtain ⟨n1, _, n3, _, n5⟩ := hAc c hc
    have n6 := hA1 c hc
    simp [actionChar, n1, n3, n5, n6]
  have hsplit := takeWhile_stop A '(' (S ++ ')' :: ('<' :: (C ++ '>' :: ('$' :: (Ch ++ ['$'])))))
    hact (by decide)
  have hg1 : pyGroup '(' ')' ('(' :: (S ++ ')' :: ('<' :: (C ++ '>' :: ('$' :: (Ch ++ ['$']))))))
      = (some S, '<' :: (C ++ '>' :: ('$' :: (Ch ++ ['$'])))) := by
    apply pyGroup_exact _ _ _ _ hS0
    intro c hc
    exact beq_eq_false_iff_ne.mpr (hSc c hc).2.1
  have hg2 : pyGroup '<' '>' ('<' :: (C ++ '>' :: ('$' :: (Ch ++ ['$']))))
      = (some C, '$' :: (Ch ++ ['$'])) := by
    apply pyGroup_exact _ _ _ _ hC0
    intro c hc
    exact beq_eq_false_iff_ne.mpr (hCc c hc).2.2.2.1
  have hg3 : pyGroup '$' '$' ('$' :: (Ch ++ ['$'])) = (some Ch, []) := by
    apply pyGroup_exact _ _ _ _ hh0
    intro c hc
    exact beq_eq_false_iff_ne.mpr (hhc c hc).2.2.2.2
  have hsplit2 : regexSplit (A ++ '(' :: (S ++ ')' :: ('<' :: (C ++ '>' :: ('$' :: (Ch ++ ['$']))))))
      = some (some A, some S, some C, some Ch) := by
    simp only [regexSplit]
    rw [hsplit.1, hsplit.2, hg1]
    dsimp only
    rw [hg2]
    dsimp only
    rw [hg3]
    simp [hA0]
  unfold extract_features_from_action
  dsimp only
  rw [hstrip, hsplit2]
  simp [normAction, normField, normChaine, hstripA, hstripS, hstripC, hstripCh,
    hA0, hS0, hC0, hh0, hA2]

/-- Claim C2 witness: the amended round-trip applied to the concrete input
`click(Home)<cfg2>$AbC$`. -/
theorem claim2_roundtrip_witness :
    extract_features_from_action
        (String.mk ("click".data ++ '(' :: ("Home".data ++ ')' :: ('<' :: ("cfg2".data
          ++ '>' :: ('$' :: ("AbC".data ++ ['$'])))))))
      = (some (String.mk "click".data), some (String.mk "Home".data),
         some (String.mk "cfg2".data), some (String.mk (pyLower "AbC".data))) :=
  claim2_roundtrip "click".data "Home".data "cfg2".data "AbC".data
    (by unfold plainField; decide) (by decide) (by decide)
    (by unfold plainField; decide) (by unfold plainField; decide)
    (by unfold plainField; decide)
